import Mathlib

/-!
Shallow embedding of the market-analysis pipeline of the Pendle YT timing
tool (`src/components/MarketAnalysis.tsx`, function `fetchMarkets`).

Numbers are modelled as exact rationals (`ℚ`); timestamps as integer
milliseconds since the epoch (`ℤ`), the value `new Date(ts).getTime()`
yields on the ISO strings the upstream API serves.  `Math.pow` with a
real exponent has no exact rational counterpart, so the price estimator
is parametrised by a power function `pf : ℚ → ℚ → ℚ`; the claims that
depend on its numeric behaviour assume only positivity on bases `> 1`
and positive exponents, which the real `Math.pow` satisfies.
JavaScript's stable `Array.prototype.sort` is modelled by Mathlib's
stable `List.insertionSort`.
-/

/-- A market, as used by the analysis loop: address, display name and
expiry timestamp (ms). -/
structure Market where
  address : String
  name : String
  expiry : ℤ
  deriving DecidableEq, Repr

/-- A transaction record.  `action`, `value`, `impliedApy` and the two
USD-valuation fields are optional in the upstream JSON.  `timestamp` is
the parsed time in ms; the source's truthiness test `tx.timestamp` is on
the (non-empty) ISO string and is always true when a timestamp exists,
so it is not re-modelled here.  `valuationUsd` models the nested
`tx.valuation?.usd`, `valuation_usd` the flat field. -/
structure Transaction where
  action : Option String
  value : Option ℚ
  impliedApy : Option ℚ
  timestamp : ℤ
  valuationUsd : Option ℚ
  valuation_usd : Option ℚ
  deriving DecidableEq, Repr

/-- Substring test on character lists: does the second list start with
the first? -/
def beginsWith : List Char → List Char → Bool
  | [], _ => true
  | _ :: _, [] => false
  | p :: ps, c :: cs => p == c && beginsWith ps cs

/-- Substring test on character lists, anywhere in the list. -/
def containsSub (pat : List Char) : List Char → Bool
  | [] => beginsWith pat []
  | c :: cs => beginsWith pat (c :: cs) || containsSub pat cs

/-- JavaScript `String.prototype.includes`. -/
def strIncludes (s pat : String) : Bool := containsSub pat.data s.data

/-- The filter of approach 1:
`tx.action && (tx.action.includes('SWAP_YT') || tx.action.includes('SWAP_PY'))`
(an absent or empty `action` string is falsy; an empty string contains
neither pattern, so the truthiness test is absorbed into the match). -/
def isYtSwapAction : Option String → Bool
  | some s => strIncludes s "SWAP_YT" || strIncludes s "SWAP_PY"
  | none => false

/-- `tx.value !== null && tx.value !== undefined && tx.value > 0`. -/
def posValue (tx : Transaction) : Bool :=
  match tx.value with
  | some v => decide (0 < v)
  | none => false

/-- `tx.value !== null && tx.value !== undefined && tx.value > 0.001 && tx.value < 5`. -/
def inRangeValue (tx : Transaction) : Bool :=
  match tx.value with
  | some v => decide (1/1000 < v) && decide (v < 5)
  | none => false

/-- `tx.impliedApy !== undefined && tx.impliedApy !== null`. -/
def hasApy (tx : Transaction) : Bool := tx.impliedApy.isSome

/-- `tx.impliedApy !== undefined && tx.impliedApy !== null && tx.impliedApy > 0`. -/
def posApy (tx : Transaction) : Bool :=
  match tx.impliedApy with
  | some a => decide (0 < a)
  | none => false

/-- The `impliedApy` of a transaction that passed the `hasApy` filter
(the source reads it with the `!` assertion). -/
def apyOrZero (tx : Transaction) : ℚ := tx.impliedApy.getD 0

/-- JavaScript `x || d` on an optional number: an absent or zero value
falls through to the default. -/
def jsOr (x : Option ℚ) (d : ℚ) : ℚ :=
  match x with
  | some v => if v = 0 then d else v
  | none => d

/-- Sort descending by timestamp, stably: the comparator
`(a, b) => new Date(b.timestamp).getTime() - new Date(a.timestamp).getTime()`. -/
def sortDescTs (txs : List Transaction) : List Transaction :=
  txs.insertionSort (fun a b => b.timestamp ≤ a.timestamp)

/-- Sort ascending by timestamp, stably: the comparator
`(a, b) => new Date(a.timestamp).getTime() - new Date(b.timestamp).getTime()`. -/
def sortAscTs (txs : List Transaction) : List Transaction :=
  txs.insertionSort (fun a b => a.timestamp ≤ b.timestamp)

/-- Milliseconds per day, `1000 * 60 * 60 * 24`. -/
def msPerDay : ℚ := 1000 * 60 * 60 * 24

/-- Milliseconds per hour, `1000 * 60 * 60`. -/
def msPerHour : ℚ := 1000 * 60 * 60

/-- Milliseconds per year, `1000 * 60 * 60 * 24 * 365`. -/
def msPerYear : ℚ := 1000 * 60 * 60 * 24 * 365

/-- `Math.max(0.1, (new Date(market.expiry).getTime() - Date.now()) / (1000*60*60*24*365))`. -/
def timeToMaturityYears (now : ℤ) (m : Market) : ℚ :=
  max (1/10) (((m.expiry - now : ℤ) : ℚ) / msPerYear)

/-- Approach 1 filter: transactions whose `action` denotes a YT/PY swap. -/
def ytTransactions (txs : List Transaction) : List Transaction :=
  txs.filter fun tx => isYtSwapAction tx.action

/-- Approach 1 of the price estimation: among the YT-swap transactions
with positive value, sorted newest first, take the first; assign its
value if it is truthy (`if (latestYtTx && latestYtTx.value)`). -/
def priceStep1 (txs : List Transaction) : ℚ :=
  if 0 < (ytTransactions txs).length then
    match (sortDescTs ((ytTransactions txs).filter posValue)).head? with
    | some tx =>
      match tx.value with
      | some v => if v = 0 then 0 else v
      | none => 0
    | none => 0
  else 0

/-- Approach 2, entered only while the price is still 0: among all
transactions with `0.001 < value < 5`, sorted newest first, take
`priceTransactions[0].value || 0`. -/
def priceStep2 (txs : List Transaction) (p : ℚ) : ℚ :=
  if p = 0 then
    match (sortDescTs (txs.filter inRangeValue)).head? with
    | some tx => jsOr tx.value 0
    | none => p
  else p

/-- Approach 3, entered only while the price is still 0 and some
transaction exists: from the most recent transaction with a positive
`impliedApy`, estimate `1 / pow(1 + impliedApy, timeToMaturityYears)`. -/
def priceStep3 (pf : ℚ → ℚ → ℚ) (now : ℤ) (m : Market) (txs : List Transaction) (p : ℚ) : ℚ :=
  if p = 0 ∧ 0 < txs.length then
    match (sortDescTs (txs.filter posApy)).head? with
    | some tx =>
      match tx.impliedApy with
      | some apy => 1 / pf (1 + apy) (timeToMaturityYears now m)
      | none => p
    | none => p
  else p

/-- The sequential price computation of `fetchMarkets`: start at 0, try
the three approaches in order, each later approach firing only while
the price is still 0. -/
def currentYTPrice (pf : ℚ → ℚ → ℚ) (now : ℤ) (m : Market) (txs : List Transaction) : ℚ :=
  priceStep3 pf now m txs (priceStep2 txs (priceStep1 txs))

/-- `tx.valuation?.usd || tx.valuation_usd || 0`. -/
def txUsd (tx : Transaction) : ℚ := jsOr tx.valuationUsd (jsOr tx.valuation_usd 0)

/-- `transactions.reduce((sum, tx) => sum + (tx.valuation?.usd || tx.valuation_usd || 0), 0)`. -/
def volumeUSD (txs : List Transaction) : ℚ := txs.foldl (fun sum tx => sum + txUsd tx) 0

/-- The list of present `impliedApy` values (`impliedApyValues` in the source). -/
def impliedApyValues (txs : List Transaction) : List ℚ :=
  (txs.filter hasApy).map apyOrZero

/-- Arithmetic mean of the present `impliedApy` values, 0 if none. -/
def averageImpliedApy (txs : List Transaction) : ℚ :=
  if 0 < (impliedApyValues txs).length then
    (impliedApyValues txs).foldl (· + ·) 0 / ((impliedApyValues txs).length : ℚ)
  else 0

/-- `impliedApyTransactions`: APY-bearing transactions sorted ascending
by timestamp. -/
def impliedApyTransactions (txs : List Transaction) : List Transaction :=
  sortAscTs (txs.filter hasApy)

/-- Day span between two transactions:
`(later.timestamp - earlier.timestamp) / (1000*60*60*24)`. -/
def daysBetween (f l : Transaction) : ℚ :=
  ((l.timestamp - f.timestamp : ℤ) : ℚ) / msPerDay

/-- Hour span between two transactions:
`(newest.timestamp - oldest.timestamp) / (1000*60*60)`. -/
def hoursBetween (newest oldest : Transaction) : ℚ :=
  ((newest.timestamp - oldest.timestamp : ℤ) : ℚ) / msPerHour

/-- The primary historical decline-rate computation (lines 142-156): if
at least two APY-bearing transactions exist and they span a positive
number of days, `(last.impliedApy - first.impliedApy) / timeSpan * 100`,
else 0. -/
def primaryDeclineRate (txs : List Transaction) : ℚ :=
  if 1 < (impliedApyTransactions txs).length then
    match (impliedApyTransactions txs).head?, (impliedApyTransactions txs).getLast? with
    | some f, some l =>
      if 0 < daysBetween f l then ((apyOrZero l - apyOrZero f) / daysBetween f l) * 100
      else 0
    | _, _ => 0
  else 0

/-- `transactions.slice(-5)`: the last five transactions (all of them if
fewer than five exist). -/
def lastFive (txs : List Transaction) : List Transaction :=
  txs.drop (txs.length - 5)

/-- `recentApy`: the present `impliedApy` values among the last five
transactions. -/
def recentApy (txs : List Transaction) : List ℚ :=
  ((lastFive txs).filter hasApy).map apyOrZero

/-- The historical decline rate (lines 141-169): the primary computation,
overridden by the coarse last-five fallback `(apyDiff * 100)` when the
primary result is exactly 0 and enough transactions exist. -/
def averageDeclineRate (txs : List Transaction) : ℚ :=
  if primaryDeclineRate txs = 0 ∧ 0 < txs.length then
    if 2 ≤ (lastFive txs).length then
      if 2 ≤ (recentApy txs).length then
        ((recentApy txs).getLast?.getD 0 - (recentApy txs).head?.getD 0) * 100
      else primaryDeclineRate txs
    else primaryDeclineRate txs
  else primaryDeclineRate txs

/-- `new Date(tx.timestamp).getTime() >= oneDayAgo` with
`oneDayAgo = Date.now() - 24*60*60*1000`. -/
def withinDay (now : ℤ) (tx : Transaction) : Bool :=
  decide (now - 24 * 60 * 60 * 1000 ≤ tx.timestamp)

/-- `recentTransactions`: APY-bearing transactions of the last 24 hours,
sorted newest first. -/
def recentTransactions (now : ℤ) (txs : List Transaction) : List Transaction :=
  sortDescTs (txs.filter fun tx => hasApy tx && withinDay now tx)

/-- The latest daily decline rate (lines 171-185): if at least two
APY-bearing transactions fall in the last 24 hours and span a positive
number of hours, `((latestApy - previousApy) / timeDiffHours) * 24`,
else 0. -/
def latestDailyDeclineRate (now : ℤ) (txs : List Transaction) : ℚ :=
  if 2 ≤ (recentTransactions now txs).length then
    match (recentTransactions now txs).head?, (recentTransactions now txs).getLast? with
    | some newest, some oldest =>
      if 0 < hoursBetween newest oldest then
        ((apyOrZero newest - apyOrZero oldest) / hoursBetween newest oldest) * 24
      else 0
    | _, _ => 0
  else 0

/-- `Math.abs`. -/
def jsAbs (x : ℚ) : ℚ := if x < 0 then -x else x

/-- The alert predicate (line 188):
`Math.abs(latestDailyDeclineRate) > Math.abs(averageDeclineRate) * 1.00001`. -/
def declineRateExceedsAverage (latest avg : ℚ) : Bool :=
  decide (jsAbs latest > jsAbs avg * (100001 / 100000))

/-- One market's analysis record, as pushed by the success branch of the
loop body. -/
structure MarketAnalysisData where
  market : Market
  currentYTPrice : ℚ
  averageDeclineRate : ℚ
  latestDailyDeclineRate : ℚ
  declineRateExceedsAverage : Bool
  volumeUSD : ℚ
  impliedApy : ℚ
  deriving DecidableEq, Repr

/-- The analysis of one market from its transaction set (the body of the
`try` block, lines 83-198). -/
def analyzeMarket (pf : ℚ → ℚ → ℚ) (now : ℤ) (m : Market) (txs : List Transaction) :
    MarketAnalysisData :=
  { market := m
    currentYTPrice := currentYTPrice pf now m txs
    averageDeclineRate := averageDeclineRate txs
    latestDailyDeclineRate := latestDailyDeclineRate now txs
    declineRateExceedsAverage :=
      declineRateExceedsAverage (latestDailyDeclineRate now txs) (averageDeclineRate txs)
    volumeUSD := volumeUSD txs
    impliedApy := averageImpliedApy txs }

/-- The zero-valued record the `catch` branch pushes when a market's
analysis fails (lines 208-216). -/
def zeroResult (m : Market) : MarketAnalysisData :=
  { market := m
    currentYTPrice := 0
    averageDeclineRate := 0
    latestDailyDeclineRate := 0
    declineRateExceedsAverage := false
    volumeUSD := 0
    impliedApy := 0 }

/-- The sequential per-market loop of `fetchMarkets` (lines 66-218):
each market's transactions are fetched (`fetch` models
`getTransactionsAll`, whose failure is the only throw site in the loop
body), a success is analyzed, a failure is replaced by the zero-valued
record, and the result is pushed in order. -/
def fetchMarkets (pf : ℚ → ℚ → ℚ) (now : ℤ)
    (fetch : Market → Except Unit (List Transaction)) :
    List Market → List MarketAnalysisData
  | [] => []
  | m :: rest =>
    (match fetch m with
     | .ok txs => analyzeMarket pf now m txs
     | .error _ => zeroResult m) :: fetchMarkets pf now fetch rest

/-- The price of approach 1, viewed as an optional result: the value of
the most recent positive-value YT-swap transaction, when one exists. -/
def approach1Price (txs : List Transaction) : Option ℚ :=
  ((sortDescTs ((ytTransactions txs).filter posValue)).head?).bind Transaction.value

/-- The price of approach 2, viewed as an optional result: the value of
the most recent transaction with `0.001 < value < 5`, when one exists. -/
def approach2Price (txs : List Transaction) : Option ℚ :=
  ((sortDescTs (txs.filter inRangeValue)).head?).bind Transaction.value

/-- The price of approach 3, viewed as an optional result: the
implied-APY estimate from the most recent positive-APY transaction,
when the transaction list is non-empty and such a transaction exists. -/
def approach3Price (pf : ℚ → ℚ → ℚ) (now : ℤ) (m : Market) (txs : List Transaction) :
    Option ℚ :=
  if 0 < txs.length then
    ((sortDescTs (txs.filter posApy)).head?).bind fun tx =>
      tx.impliedApy.map fun apy => 1 / pf (1 + apy) (timeToMaturityYears now m)
  else none

/-- First-success-wins combination of two optional results. -/
def firstSome (a b : Option ℚ) : Option ℚ :=
  match a with
  | some v => some v
  | none => b

theorem jsAbs_eq_abs (x : ℚ) : jsAbs x = |x| := by
  unfold jsAbs
  rcases lt_or_le x 0 with h | h
  · rw [if_pos h, abs_of_neg h]
  · rw [if_neg (not_lt.mpr h), abs_of_nonneg h]

theorem mem_sortDescTs {tx : Transaction} {l : List Transaction} :
    tx ∈ sortDescTs l ↔ tx ∈ l :=
  (List.perm_insertionSort _ l).mem_iff

theorem mem_sortAscTs {tx : Transaction} {l : List Transaction} :
    tx ∈ sortAscTs l ↔ tx ∈ l :=
  (List.perm_insertionSort _ l).mem_iff

theorem length_sortDescTs (l : List Transaction) : (sortDescTs l).length = l.length :=
  (List.perm_insertionSort _ l).length_eq

theorem length_sortAscTs (l : List Transaction) : (sortAscTs l).length = l.length :=
  (List.perm_insertionSort _ l).length_eq

theorem sortDescTs_sorted (l : List Transaction) :
    (sortDescTs l).Sorted (fun a b => b.timestamp ≤ a.timestamp) := by
  haveI : IsTotal Transaction (fun a b => b.timestamp ≤ a.timestamp) :=
    ⟨fun a b => le_total b.timestamp a.timestamp⟩
  haveI : IsTrans Transaction (fun a b => b.timestamp ≤ a.timestamp) :=
    ⟨fun _ _ _ h1 h2 => le_trans h2 h1⟩
  exact List.sorted_insertionSort _ l

theorem sortDescTs_head_max {l : List Transaction} {tx : Transaction}
    (h : (sortDescTs l).head? = some tx) : ∀ t ∈ l, t.timestamp ≤ tx.timestamp := by
  intro t ht
  have ht' : t ∈ sortDescTs l := mem_sortDescTs.mpr ht
  have hs := sortDescTs_sorted l
  rcases hl : sortDescTs l with _ | ⟨a, rest⟩
  · rw [hl] at ht'; cases ht'
  · rw [hl] at h hs ht'
    simp only [List.head?_cons, Option.some.injEq] at h
    subst h
    rcases List.mem_cons.mp ht' with rfl | hrest
    · exact le_refl _
    · exact List.rel_of_sorted_cons hs t hrest

theorem declineRateExceedsAverage_iff (latest avg : ℚ) :
    declineRateExceedsAverage latest avg = true ↔
      |latest| > |avg| * (1 + 1/100000) := by
  unfold declineRateExceedsAverage
  rw [decide_eq_true_iff, jsAbs_eq_abs, jsAbs_eq_abs]
  norm_num

theorem declineRateExceedsAverage_of_eq {latest avg : ℚ} (h : latest = avg) :
    declineRateExceedsAverage latest avg = false := by
  rw [Bool.eq_false_iff]
  intro hb
  rw [declineRateExceedsAverage_iff, h] at hb
  have h0 : (0 : ℚ) ≤ |avg| := abs_nonneg avg
  nlinarith

theorem declineRateExceedsAverage_of_ratio {latest avg : ℚ}
    (h : latest = avg * (11/10)) (hne : avg ≠ 0) :
    declineRateExceedsAverage latest avg = true := by
  rw [declineRateExceedsAverage_iff, h, abs_mul]
  have h0 : (0 : ℚ) < |avg| := abs_pos.mpr hne
  rw [show |(11/10 : ℚ)| = 11/10 from abs_of_pos (by norm_num)]
  nlinarith

/-- C1 (amended): the alert flag is set iff `|latestDailyDeclineRate|`
strictly exceeds `|averageDeclineRate| * (1 + ε)` with `ε = 1e-5`; a
transaction set with the two rates exactly equal never alerts; and a
transaction set with `latestDailyDeclineRate = averageDeclineRate * 1.1`
alerts provided `averageDeclineRate` is nonzero.  (The unamended claim,
which drops the last proviso, fails when both rates are 0; see the
counterexample.) -/
theorem alert_predicate_characterization (now : ℤ) (txs : List Transaction) :
    (declineRateExceedsAverage (latestDailyDeclineRate now txs) (averageDeclineRate txs) = true ↔
      |latestDailyDeclineRate now txs| > |averageDeclineRate txs| * (1 + 1/100000)) ∧
    (latestDailyDeclineRate now txs = averageDeclineRate txs →
      declineRateExceedsAverage (latestDailyDeclineRate now txs) (averageDeclineRate txs)
        = false) ∧
    (latestDailyDeclineRate now txs = averageDeclineRate txs * (11/10) →
      averageDeclineRate txs ≠ 0 →
      declineRateExceedsAverage (latestDailyDeclineRate now txs) (averageDeclineRate txs)
        = true) :=
  ⟨declineRateExceedsAverage_iff _ _,
   fun h => declineRateExceedsAverage_of_eq h,
   fun h hne => declineRateExceedsAverage_of_ratio h hne⟩

/-- Witness for C1: a concrete transaction set whose historical rate is
`1/2` %/day, whose recent rate is `11/20` (= `1/2 × 1.1`), and whose
alert flag is therefore set. -/
theorem alert_predicate_characterization_witness :
    declineRateExceedsAverage
      (latestDailyDeclineRate 172800000
        [⟨none, none, some 0, 0, none, none⟩,
         ⟨none, none, some (-27/50), 86400000, none, none⟩,
         ⟨none, none, some (1/100), 172800000, none, none⟩])
      (averageDeclineRate
        [⟨none, none, some 0, 0, none, none⟩,
         ⟨none, none, some (-27/50), 86400000, none, none⟩,
         ⟨none, none, some (1/100), 172800000, none, none⟩]) = true :=
  (alert_predicate_characterization 172800000 _).2.2
    (by
      norm_num [latestDailyDeclineRate, recentTransactions, sortDescTs, hasApy, withinDay,
        apyOrZero, hoursBetween, msPerHour, averageDeclineRate, primaryDeclineRate,
        impliedApyTransactions, sortAscTs, daysBetween, msPerDay, lastFive, recentApy])
    (by
      norm_num [averageDeclineRate, primaryDeclineRate, impliedApyTransactions, sortAscTs,
        hasApy, apyOrZero, daysBetween, msPerDay, lastFive, recentApy])

/-- Counterexample to C1 as stated: a transaction set (two equal APY
observations older than 24 hours) whose rates are both 0, so that
`latestDailyDeclineRate = averageDeclineRate × 1.1` holds, yet no alert
triggers. -/
theorem alert_predicate_claim_counterexample :
    latestDailyDeclineRate 2592000000
        [⟨none, none, some (1/10), 0, none, none⟩,
         ⟨none, none, some (1/10), 172800000, none, none⟩]
      = averageDeclineRate
          [⟨none, none, some (1/10), 0, none, none⟩,
           ⟨none, none, some (1/10), 172800000, none, none⟩] * (11/10) ∧
    declineRateExceedsAverage
      (latestDailyDeclineRate 2592000000
        [⟨none, none, some (1/10), 0, none, none⟩,
         ⟨none, none, some (1/10), 172800000, none, none⟩])
      (averageDeclineRate
        [⟨none, none, some (1/10), 0, none, none⟩,
         ⟨none, none, some (1/10), 172800000, none, none⟩]) = false := by
  norm_num [latestDailyDeclineRate, recentTransactions, sortDescTs, hasApy, withinDay,
    apyOrZero, hoursBetween, msPerHour, averageDeclineRate, primaryDeclineRate,
    impliedApyTransactions, sortAscTs, daysBetween, msPerDay, lastFive, recentApy,
    declineRateExceedsAverage, jsAbs]


theorem head_sortDescTs_mem {l : List Transaction} {tx : Transaction}
    (h : (sortDescTs l).head? = some tx) : tx ∈ l := by
  have hmem : tx ∈ sortDescTs l := by
    rcases hl : sortDescTs l with _ | ⟨a, rest⟩
    · rw [hl] at h; cases h
    · rw [hl] at h
      simp only [List.head?_cons, Option.some.injEq] at h
      subst h
      exact List.mem_cons_self _ _
  exact mem_sortDescTs.mp hmem

theorem posValue_spec {tx : Transaction} (h : posValue tx = true) :
    ∃ v, tx.value = some v ∧ 0 < v := by
  unfold posValue at h
  rcases hv : tx.value with _ | v
  · rw [hv] at h; cases h
  · rw [hv] at h; exact ⟨v, rfl, of_decide_eq_true h⟩

theorem inRangeValue_spec {tx : Transaction} (h : inRangeValue tx = true) :
    ∃ v, tx.value = some v ∧ 1/1000 < v ∧ v < 5 := by
  unfold inRangeValue at h
  rcases hv : tx.value with _ | v
  · rw [hv] at h; cases h
  · rw [hv, Bool.and_eq_true] at h
    exact ⟨v, rfl, of_decide_eq_true h.1, of_decide_eq_true h.2⟩

theorem posApy_spec {tx : Transaction} (h : posApy tx = true) :
    ∃ a, tx.impliedApy = some a ∧ 0 < a := by
  unfold posApy at h
  rcases ha : tx.impliedApy with _ | a
  · rw [ha] at h; cases h
  · rw [ha] at h; exact ⟨a, rfl, of_decide_eq_true h⟩

theorem approach1Price_pos {txs : List Transaction} {v : ℚ}
    (h : approach1Price txs = some v) : 0 < v := by
  unfold approach1Price at h
  rcases h1 : (sortDescTs ((ytTransactions txs).filter posValue)).head? with _ | tx
  · rw [h1] at h; cases h
  · rw [h1] at h
    have hmem := head_sortDescTs_mem h1
    have hpv : posValue tx = true := (List.mem_filter.mp hmem).2
    obtain ⟨w, hw, hwpos⟩ := posValue_spec hpv
    simp only [hw, Option.some_bind, Option.some.injEq] at h
    rw [← h.symm] at hwpos
    exact hwpos

theorem approach2Price_range {txs : List Transaction} {v : ℚ}
    (h : approach2Price txs = some v) : 1/1000 < v ∧ v < 5 := by
  unfold approach2Price at h
  rcases h1 : (sortDescTs (txs.filter inRangeValue)).head? with _ | tx
  · rw [h1] at h; cases h
  · rw [h1] at h
    have hmem := head_sortDescTs_mem h1
    have hpv : inRangeValue tx = true := (List.mem_filter.mp hmem).2
    obtain ⟨w, hw, hw1, hw2⟩ := inRangeValue_spec hpv
    simp only [hw, Option.some_bind, Option.some.injEq] at h
    subst h
    exact ⟨hw1, hw2⟩

theorem approach3Price_form {pf : ℚ → ℚ → ℚ} {now : ℤ} {m : Market}
    {txs : List Transaction} {v : ℚ} (h : approach3Price pf now m txs = some v) :
    ∃ apy, 0 < apy ∧ v = 1 / pf (1 + apy) (timeToMaturityYears now m) := by
  unfold approach3Price at h
  by_cases hlen : 0 < txs.length
  · rw [if_pos hlen] at h
    rcases h1 : (sortDescTs (txs.filter posApy)).head? with _ | tx
    · rw [h1] at h; cases h
    · rw [h1] at h
      have hmem := head_sortDescTs_mem h1
      have hpa : posApy tx = true := (List.mem_filter.mp hmem).2
      obtain ⟨a, ha, hapos⟩ := posApy_spec hpa
      simp only [ha, Option.some_bind, Option.map_some', Option.some.injEq] at h
      exact ⟨a, hapos, h.symm⟩
  · rw [if_neg hlen] at h
    cases h

theorem priceStep1_eq (txs : List Transaction) :
    priceStep1 txs = (approach1Price txs).getD 0 := by
  unfold priceStep1 approach1Price
  rcases h1 : (sortDescTs ((ytTransactions txs).filter posValue)).head? with _ | tx
  · split <;> rfl
  · have hmem := head_sortDescTs_mem h1
    have hbase : tx ∈ ytTransactions txs := (List.mem_filter.mp hmem).1
    have hpv : posValue tx = true := (List.mem_filter.mp hmem).2
    obtain ⟨w, hw, hwpos⟩ := posValue_spec hpv
    rw [if_pos (List.length_pos_of_mem hbase)]
    simp [hw, ne_of_gt hwpos]

theorem priceStep2_of_ne (txs : List Transaction) {p : ℚ} (hp : p ≠ 0) :
    priceStep2 txs p = p := by
  unfold priceStep2
  rw [if_neg hp]

theorem priceStep2_of_zero (txs : List Transaction) :
    priceStep2 txs 0 = (approach2Price txs).getD 0 := by
  unfold priceStep2 approach2Price
  rw [if_pos rfl]
  rcases h1 : (sortDescTs (txs.filter inRangeValue)).head? with _ | tx
  · rfl
  · have hmem := head_sortDescTs_mem h1
    have hpv : inRangeValue tx = true := (List.mem_filter.mp hmem).2
    obtain ⟨w, hw, hw1, _⟩ := inRangeValue_spec hpv
    have hwne : w ≠ 0 := by positivity
    simp [hw, jsOr, hwne]

theorem priceStep3_of_ne (pf : ℚ → ℚ → ℚ) (now : ℤ) (m : Market)
    (txs : List Transaction) {p : ℚ} (hp : p ≠ 0) :
    priceStep3 pf now m txs p = p := by
  unfold priceStep3
  rw [if_neg (by intro hc; exact hp hc.1)]

theorem priceStep3_of_zero (pf : ℚ → ℚ → ℚ) (now : ℤ) (m : Market)
    (txs : List Transaction) :
    priceStep3 pf now m txs 0 = (approach3Price pf now m txs).getD 0 := by
  unfold priceStep3 approach3Price
  by_cases hlen : 0 < txs.length
  · rw [if_pos ⟨rfl, hlen⟩, if_pos hlen]
    rcases h1 : (sortDescTs (txs.filter posApy)).head? with _ | tx
    · rfl
    · have hmem := head_sortDescTs_mem h1
      have hpa : posApy tx = true := (List.mem_filter.mp hmem).2
      obtain ⟨a, ha, _⟩ := posApy_spec hpa
      simp [ha]
  · rw [if_neg (by intro hc; exact hlen hc.2), if_neg hlen]
    rfl

theorem currentYTPrice_decompose (pf : ℚ → ℚ → ℚ) (now : ℤ) (m : Market)
    (txs : List Transaction) :
    currentYTPrice pf now m txs =
      (firstSome (approach1Price txs)
        (firstSome (approach2Price txs) (approach3Price pf now m txs))).getD 0 := by
  unfold currentYTPrice
  rw [priceStep1_eq]
  rcases ha1 : approach1Price txs with _ | v
  · simp only [Option.getD_none]
    rw [priceStep2_of_zero]
    rcases ha2 : approach2Price txs with _ | w
    · simp only [Option.getD_none]
      rw [priceStep3_of_zero]
      rfl
    · have hw := (approach2Price_range ha2).1
      have hwne : w ≠ 0 := by positivity
      simp only [Option.getD_some]
      rw [priceStep3_of_ne _ _ _ _ hwne]
      rfl
  · have hv := approach1Price_pos ha1
    have hvne : v ≠ 0 := ne_of_gt hv
    simp only [Option.getD_some]
    rw [priceStep2_of_ne _ hvne, priceStep3_of_ne _ _ _ _ hvne]
    rfl

/-- C2: the current YT price is the first success among, in order, the
most recent positive-value yield-token swap (approach 1), the most
recent transaction with value in `(0.001, 5)` (approach 2), and the
implied-APY estimate (approach 3), defaulting to 0; in particular, when
approach 1 yields a price, that price is the result and the implied-APY
fallback is never consulted. -/
theorem price_approach_order (pf : ℚ → ℚ → ℚ) (now : ℤ) (m : Market)
    (txs : List Transaction) :
    currentYTPrice pf now m txs =
      (firstSome (approach1Price txs)
        (firstSome (approach2Price txs) (approach3Price pf now m txs))).getD 0 ∧
    (∀ v, approach1Price txs = some v → currentYTPrice pf now m txs = v) :=
  ⟨currentYTPrice_decompose pf now m txs,
   fun v hv => by
     rw [currentYTPrice_decompose]
     simp [firstSome, hv]⟩

/-- Witness for C2: a fixture holding both a valid yield-swap
transaction (value 2) and a positive implied APY; the price is the swap
value, so the implied-APY fallback was ignored. -/
theorem price_approach_order_witness :
    currentYTPrice (fun b _ => b) 0 ⟨"0xabc", "mkt", 31536000000⟩
      [⟨some "SWAP_YT", some 2, none, 5, none, none⟩,
       ⟨none, none, some (1/2), 10, none, none⟩] = 2 :=
  (price_approach_order (fun b _ => b) 0 ⟨"0xabc", "mkt", 31536000000⟩
    [⟨some "SWAP_YT", some 2, none, 5, none, none⟩,
     ⟨none, none, some (1/2), 10, none, none⟩]).2 2
    (by
      norm_num [approach1Price, ytTransactions, sortDescTs, posValue,
        show isYtSwapAction (some "SWAP_YT") = true from by decide,
        show isYtSwapAction (none (α := String)) = false from by decide])

theorem lastFive_length {txs : List Transaction} (h : 2 ≤ txs.length) :
    2 ≤ (lastFive txs).length := by
  unfold lastFive
  rw [List.length_drop]
  omega

/-- C3: the historical rate sorts the APY-bearing transactions by
ascending timestamp and, when at least two exist and span a positive
number of days, equals `(last.impliedApy − first.impliedApy) / spanInDays × 100`;
whenever that primary computation is exactly 0 and at least two
transactions exist overall, the published `averageDeclineRate` is
instead the first-to-last difference of the APY values among the last
five transactions times 100, with no time normalisation. -/
theorem averageDeclineRate_spec (txs : List Transaction) :
    (∀ f l, (impliedApyTransactions txs).head? = some f →
      (impliedApyTransactions txs).getLast? = some l →
      2 ≤ (txs.filter hasApy).length →
      0 < daysBetween f l →
      primaryDeclineRate txs = ((apyOrZero l - apyOrZero f) / daysBetween f l) * 100) ∧
    (primaryDeclineRate txs = 0 → 2 ≤ txs.length →
      averageDeclineRate txs =
        ((recentApy txs).getLast?.getD 0 - (recentApy txs).head?.getD 0) * 100) := by
  constructor
  · intro f l hf hl hlen hspan
    unfold primaryDeclineRate
    have hlen' : 1 < (impliedApyTransactions txs).length := by
      unfold impliedApyTransactions
      rw [length_sortAscTs]
      omega
    rw [if_pos hlen']
    simp only [hf, hl]
    rw [if_pos hspan]
  · intro hp hlen
    unfold averageDeclineRate
    rw [if_pos ⟨hp, by omega⟩, if_pos (lastFive_length hlen)]
    by_cases hra : 2 ≤ (recentApy txs).length
    · rw [if_pos hra]
    · rw [if_neg hra, hp]
      rcases hr : recentApy txs with _ | ⟨a, _ | ⟨b, rest⟩⟩
      · simp
      · simp
      · exact absurd (by rw [hr]; simp) hra

/-- Witness for C3: a two-point history spanning one day with APYs 0
and 0.1 gives a primary rate of 10 %/day, and a zero-span history with
the same APYs falls back to the last-five difference, 10. -/
theorem averageDeclineRate_spec_witness :
    primaryDeclineRate
        [⟨none, none, some 0, 0, none, none⟩,
         ⟨none, none, some (1/10), 86400000, none, none⟩]
      = ((apyOrZero ⟨none, none, some (1/10), 86400000, none, none⟩ -
          apyOrZero ⟨none, none, some 0, 0, none, none⟩) /
            daysBetween ⟨none, none, some 0, 0, none, none⟩
              ⟨none, none, some (1/10), 86400000, none, none⟩) * 100 ∧
    averageDeclineRate
        [⟨none, none, some 0, 100, none, none⟩,
         ⟨none, none, some (1/10), 100, none, none⟩]
      = ((recentApy
            [⟨none, none, some 0, 100, none, none⟩,
             ⟨none, none, some (1/10), 100, none, none⟩]).getLast?.getD 0 -
          (recentApy
            [⟨none, none, some 0, 100, none, none⟩,
             ⟨none, none, some (1/10), 100, none, none⟩]).head?.getD 0) * 100 :=
  ⟨(averageDeclineRate_spec _).1
      ⟨none, none, some 0, 0, none, none⟩
      ⟨none, none, some (1/10), 86400000, none, none⟩
      rfl rfl (by decide) (by norm_num [daysBetween, msPerDay]),
   (averageDeclineRate_spec _).2
      (by norm_num [primaryDeclineRate, impliedApyTransactions, sortAscTs, hasApy,
        daysBetween, msPerDay])
      (by decide)⟩

/-- C4: the latest daily rate considers APY-bearing transactions of the
last 24 hours sorted newest first; with at least two of them spanning a
positive number of hours it is
`((newest.impliedApy − oldest.impliedApy) / spanInHours) × 24`, and in
every other case (fewer than two recent observations, or a non-positive
span) it is 0. -/
theorem latestDailyDeclineRate_spec (now : ℤ) (txs : List Transaction) :
    (∀ newest oldest, (recentTransactions now txs).head? = some newest →
      (recentTransactions now txs).getLast? = some oldest →
      2 ≤ (recentTransactions now txs).length →
      0 < hoursBetween newest oldest →
      latestDailyDeclineRate now txs =
        ((apyOrZero newest - apyOrZero oldest) / hoursBetween newest oldest) * 24) ∧
    ((recentTransactions now txs).length < 2 → latestDailyDeclineRate now txs = 0) ∧
    (∀ newest oldest, (recentTransactions now txs).head? = some newest →
      (recentTransactions now txs).getLast? = some oldest →
      hoursBetween newest oldest ≤ 0 →
      latestDailyDeclineRate now txs = 0) := by
  refine ⟨?_, ?_, ?_⟩
  · intro newest oldest hh hl hlen hspan
    unfold latestDailyDeclineRate
    rw [if_pos hlen]
    simp only [hh, hl]
    rw [if_pos hspan]
  · intro hlen
    unfold latestDailyDeclineRate
    rw [if_neg (by omega)]
  · intro newest oldest hh hl hspan
    unfold latestDailyDeclineRate
    by_cases hlen : 2 ≤ (recentTransactions now txs).length
    · rw [if_pos hlen]
      simp only [hh, hl]
      rw [if_neg (not_lt.mpr hspan)]
    · rw [if_neg hlen]

/-- Witness for C4: two observations one day apart, both within the
24-hour window at `now` = 48h, give
`((0.1 − 0) / 24) × 24 = 0.1`; the empty set gives 0; and two
observations at the same instant give 0. -/
theorem latestDailyDeclineRate_spec_witness :
    latestDailyDeclineRate 172800000
        [⟨none, none, some 0, 86400000, none, none⟩,
         ⟨none, none, some (1/10), 172800000, none, none⟩]
      = ((apyOrZero ⟨none, none, some (1/10), 172800000, none, none⟩ -
          apyOrZero ⟨none, none, some 0, 86400000, none, none⟩) /
            hoursBetween ⟨none, none, some (1/10), 172800000, none, none⟩
              ⟨none, none, some 0, 86400000, none, none⟩) * 24 ∧
    latestDailyDeclineRate 0 [] = 0 ∧
    latestDailyDeclineRate 172800000
        [⟨none, none, some 0, 172800000, none, none⟩,
         ⟨none, none, some (1/10), 172800000, none, none⟩] = 0 :=
  ⟨(latestDailyDeclineRate_spec 172800000 _).1
      ⟨none, none, some (1/10), 172800000, none, none⟩
      ⟨none, none, some 0, 86400000, none, none⟩
      rfl rfl (by decide) (by norm_num [hoursBetween, msPerHour]),
   (latestDailyDeclineRate_spec 0 _).2.1 (by decide),
   (latestDailyDeclineRate_spec 172800000 _).2.2
      ⟨none, none, some 0, 172800000, none, none⟩
      ⟨none, none, some (1/10), 172800000, none, none⟩
      rfl rfl (by norm_num [hoursBetween, msPerHour])⟩

theorem length_filter_and_le (p q : Transaction → Bool) (l : List Transaction) :
    (l.filter fun a => p a && q a).length ≤ (l.filter p).length := by
  induction l with
  | nil => simp
  | cons a t ih =>
    simp only [List.filter_cons]
    by_cases hp : p a = true
    · by_cases hq : q a = true
      · simp only [hp, hq, Bool.and_self, if_true, List.length_cons]
        omega
      · simp only [hp, hq, Bool.and_false, Bool.false_eq_true, if_true, if_false,
          List.length_cons]
        omega
    · simp only [hp, Bool.false_and, Bool.false_eq_true, if_false]
      exact ih

theorem primaryDeclineRate_zero_of_few {txs : List Transaction}
    (h : (txs.filter hasApy).length < 2) : primaryDeclineRate txs = 0 := by
  unfold primaryDeclineRate
  rw [if_neg]
  unfold impliedApyTransactions
  rw [length_sortAscTs]
  omega

theorem recentApy_length_le (txs : List Transaction) :
    (recentApy txs).length ≤ (txs.filter hasApy).length := by
  unfold recentApy lastFive
  rw [List.length_map]
  exact ((List.drop_sublist _ _).filter hasApy).length_le

theorem averageDeclineRate_zero_of_few {txs : List Transaction}
    (h : (txs.filter hasApy).length < 2) : averageDeclineRate txs = 0 := by
  have hp := primaryDeclineRate_zero_of_few h
  unfold averageDeclineRate
  by_cases h0 : primaryDeclineRate txs = 0 ∧ 0 < txs.length
  · rw [if_pos h0]
    by_cases h5 : 2 ≤ (lastFive txs).length
    · rw [if_pos h5, if_neg (by have := recentApy_length_le txs; omega)]
      exact hp
    · rw [if_neg h5]; exact hp
  · rw [if_neg h0]; exact hp

theorem latestDailyDeclineRate_zero_of_few_recent {now : ℤ} {txs : List Transaction}
    (h : (txs.filter fun tx => hasApy tx && withinDay now tx).length < 2) :
    latestDailyDeclineRate now txs = 0 := by
  unfold latestDailyDeclineRate
  rw [if_neg (by unfold recentTransactions; rw [length_sortDescTs]; omega)]

theorem latestDailyDeclineRate_zero_of_few {txs : List Transaction} (now : ℤ)
    (h : (txs.filter hasApy).length < 2) : latestDailyDeclineRate now txs = 0 :=
  latestDailyDeclineRate_zero_of_few_recent
    (lt_of_le_of_lt (length_filter_and_le hasApy (withinDay now) txs) h)

/-- C5: a transaction set with fewer than two APY-bearing entries yields
`averageDeclineRate = 0` and `latestDailyDeclineRate = 0`. -/
theorem declineRates_zero_of_few_apy (now : ℤ) (txs : List Transaction)
    (h : (txs.filter hasApy).length < 2) :
    averageDeclineRate txs = 0 ∧ latestDailyDeclineRate now txs = 0 :=
  ⟨averageDeclineRate_zero_of_few h, latestDailyDeclineRate_zero_of_few now h⟩

/-- Witness for C5: two transactions, only one of which carries an
`impliedApy`, give 0 for both decline rates. -/
theorem declineRates_zero_of_few_apy_witness :
    averageDeclineRate
        [⟨none, none, some (1/10), 0, none, none⟩,
         ⟨none, some 1, none, 10, none, none⟩] = 0 ∧
    latestDailyDeclineRate 0
        [⟨none, none, some (1/10), 0, none, none⟩,
         ⟨none, some 1, none, 10, none, none⟩] = 0 :=
  declineRates_zero_of_few_apy 0
    [⟨none, none, some (1/10), 0, none, none⟩,
     ⟨none, some 1, none, 10, none, none⟩] (by decide)

/-- C10: with fewer than two APY-bearing transactions inside the
24-hour window, `latestDailyDeclineRate` is 0 and the alert can never
fire, whatever the historical `averageDeclineRate` is. -/
theorem no_alert_without_recent_apy (now : ℤ) (txs : List Transaction)
    (h : (txs.filter fun tx => hasApy tx && withinDay now tx).length < 2) :
    latestDailyDeclineRate now txs = 0 ∧
    declineRateExceedsAverage (latestDailyDeclineRate now txs) (averageDeclineRate txs)
      = false := by
  refine ⟨latestDailyDeclineRate_zero_of_few_recent h, ?_⟩
  rw [latestDailyDeclineRate_zero_of_few_recent h, Bool.eq_false_iff]
  intro hb
  rw [declineRateExceedsAverage_iff, abs_zero] at hb
  have h0 := abs_nonneg (averageDeclineRate txs)
  nlinarith

/-- Witness for C10: two APY observations a day apart but both older
than 24 hours at `now` = 30 days give a nonzero historical rate yet no
alert. -/
theorem no_alert_without_recent_apy_witness :
    latestDailyDeclineRate 2592000000
        [⟨none, none, some 0, 0, none, none⟩,
         ⟨none, none, some (1/10), 86400000, none, none⟩] = 0 ∧
    declineRateExceedsAverage
      (latestDailyDeclineRate 2592000000
        [⟨none, none, some 0, 0, none, none⟩,
         ⟨none, none, some (1/10), 86400000, none, none⟩])
      (averageDeclineRate
        [⟨none, none, some 0, 0, none, none⟩,
         ⟨none, none, some (1/10), 86400000, none, none⟩]) = false :=
  no_alert_without_recent_apy 2592000000
    [⟨none, none, some 0, 0, none, none⟩,
     ⟨none, none, some (1/10), 86400000, none, none⟩] (by decide)

/-- C6: when approaches 1 and 2 produce nothing and a positive-APY
transaction exists, the price is `1 / pow(1 + impliedApy, T)` with the
APY read from the most recent positive-APY transaction and
`T = max(0.1, yearsUntilExpiry)`; the selected transaction's timestamp
is maximal among the positive-APY transactions. -/
theorem price_impliedApy_fallback (pf : ℚ → ℚ → ℚ) (now : ℤ) (m : Market)
    (txs : List Transaction) (apyTx : Transaction) (apy : ℚ)
    (h1 : approach1Price txs = none) (h2 : approach2Price txs = none)
    (hh : (sortDescTs (txs.filter posApy)).head? = some apyTx)
    (ha : apyTx.impliedApy = some apy) :
    currentYTPrice pf now m txs = 1 / pf (1 + apy) (timeToMaturityYears now m) ∧
    timeToMaturityYears now m = max (1/10) (((m.expiry - now : ℤ) : ℚ) / msPerYear) ∧
    (∀ t ∈ txs.filter posApy, t.timestamp ≤ apyTx.timestamp) := by
  refine ⟨?_, rfl, sortDescTs_head_max hh⟩
  have hmem : apyTx ∈ txs := (List.mem_filter.mp (head_sortDescTs_mem hh)).1
  have hlen : 0 < txs.length := List.length_pos_of_mem hmem
  rw [currentYTPrice_decompose, h1, h2]
  unfold firstSome approach3Price
  rw [if_pos hlen, hh]
  simp [ha]

/-- Witness for C6: a single transaction with `impliedApy = 1/2` and no
usable value, and a market expiring one year after `now`, price to
`1 / pf (3/2) T`. -/
theorem price_impliedApy_fallback_witness :
    currentYTPrice (fun b e => b * e) 0 ⟨"0xdef", "mkt2", 31536000000⟩
        [⟨none, none, some (1/2), 10, none, none⟩]
      = 1 / (fun b e => b * e) (1 + 1/2)
          (timeToMaturityYears 0 ⟨"0xdef", "mkt2", 31536000000⟩) :=
  (price_impliedApy_fallback (fun b e => b * e) 0 ⟨"0xdef", "mkt2", 31536000000⟩
    [⟨none, none, some (1/2), 10, none, none⟩]
    ⟨none, none, some (1/2), 10, none, none⟩ (1/2)
    rfl rfl
    (by norm_num [sortDescTs, posApy])
    rfl).1

theorem fetchMarkets_eq_map (pf : ℚ → ℚ → ℚ) (now : ℤ)
    (fetch : Market → Except Unit (List Transaction)) (markets : List Market) :
    fetchMarkets pf now fetch markets =
      markets.map fun m =>
        match fetch m with
        | .ok txs => analyzeMarket pf now m txs
        | .error _ => zeroResult m := by
  induction markets with
  | nil => rfl
  | cons m rest ih => simp [fetchMarkets, ih]

/-- C7: the per-market loop produces one result per input market, in
order; a market whose transaction retrieval fails contributes the
zero-valued record, and every other market's result is exactly what its
own fetch outcome determines, unaffected by failures elsewhere in the
batch. -/
theorem fetchMarkets_isolation (pf : ℚ → ℚ → ℚ) (now : ℤ)
    (fetch : Market → Except Unit (List Transaction)) (markets : List Market) :
    (fetchMarkets pf now fetch markets).length = markets.length ∧
    (∀ i (hi : i < markets.length),
      (fetchMarkets pf now fetch markets)[i]? =
        some (match fetch markets[i] with
              | .ok txs => analyzeMarket pf now markets[i] txs
              | .error _ => zeroResult markets[i])) ∧
    (∀ i (hi : i < markets.length), fetch markets[i] = .error () →
      (fetchMarkets pf now fetch markets)[i]? = some (zeroResult markets[i])) := by
  have hmap := fetchMarkets_eq_map pf now fetch markets
  have hidx : ∀ i (hi : i < markets.length),
      (fetchMarkets pf now fetch markets)[i]? =
        some (match fetch markets[i] with
              | .ok txs => analyzeMarket pf now markets[i] txs
              | .error _ => zeroResult markets[i]) := by
    intro i hi
    rw [hmap, List.getElem?_map, List.getElem?_eq_getElem hi]
    rfl
  refine ⟨by rw [hmap, List.length_map], hidx, ?_⟩
  intro i hi hfail
  rw [hidx i hi, hfail]

/-- Witness for C7: a batch of two markets where the first market's
fetch throws; the first result is the zero record and the loop still
yields two results. -/
theorem fetchMarkets_isolation_witness :
    (fetchMarkets (fun b _ => b) 0
      (fun m => if m.name = "bad" then Except.error () else Except.ok [])
      [⟨"0x1", "bad", 0⟩, ⟨"0x2", "good", 0⟩])[0]?
      = some (zeroResult ⟨"0x1", "bad", 0⟩) :=
  (fetchMarkets_isolation (fun b _ => b) 0
    (fun m => if m.name = "bad" then Except.error () else Except.ok [])
    [⟨"0x1", "bad", 0⟩, ⟨"0x2", "good", 0⟩]).2.2 0 (by decide) (by rfl)

theorem foldl_add_txUsd (txs : List Transaction) (init : ℚ) :
    txs.foldl (fun sum tx => sum + txUsd tx) init = init + (txs.map txUsd).sum := by
  induction txs generalizing init with
  | nil => simp
  | cons a t ih =>
    rw [List.foldl_cons, ih, List.map_cons, List.sum_cons]
    ring

/-- C8: the volume is the sum over all transactions of the USD
valuation, read from the nested field or (JavaScript `||`) the flat
field; a transaction with neither field contributes exactly 0, with no
error. -/
theorem volumeUSD_spec (txs : List Transaction) :
    volumeUSD txs = (txs.map txUsd).sum ∧
    (∀ tx : Transaction, tx.valuationUsd = none → tx.valuation_usd = none →
      txUsd tx = 0) := by
  constructor
  · unfold volumeUSD
    rw [foldl_add_txUsd, zero_add]
  · intro tx hn hf
    unfold txUsd
    rw [hn, hf]
    rfl

/-- Witness for C8: a transaction carrying neither valuation field
contributes 0, and the volume of a concrete two-transaction set is the
sum of its per-transaction valuations. -/
theorem volumeUSD_spec_witness :
    txUsd ⟨none, none, none, 0, none, none⟩ = 0 :=
  (volumeUSD_spec []).2 ⟨none, none, none, 0, none, none⟩ rfl rfl

/-- C9: under the positivity property of `Math.pow` (a base above 1 and
a positive exponent give a positive power), the computed YT price is
nonnegative; each of the three approaches, when it fires, yields a
strictly positive value, and when none fires the price is exactly 0. -/
theorem currentYTPrice_nonneg (pf : ℚ → ℚ → ℚ) (now : ℤ) (m : Market)
    (txs : List Transaction)
    (hpf : ∀ b e : ℚ, 1 < b → 0 < e → 0 < pf b e) :
    0 ≤ currentYTPrice pf now m txs ∧
    (∀ v, approach1Price txs = some v → 0 < v) ∧
    (∀ v, approach2Price txs = some v → 0 < v) ∧
    (∀ v, approach3Price pf now m txs = some v → 0 < v) ∧
    (approach1Price txs = none → approach2Price txs = none →
      approach3Price pf now m txs = none → currentYTPrice pf now m txs = 0) := by
  have h3 : ∀ v, approach3Price pf now m txs = some v → 0 < v := by
    intro v hv
    obtain ⟨apy, hapy, rfl⟩ := approach3Price_form hv
    have hT : (0 : ℚ) < timeToMaturityYears now m :=
      lt_of_lt_of_le (by norm_num) (le_max_left _ _)
    exact one_div_pos.mpr (hpf (1 + apy) (timeToMaturityYears now m) (by linarith) hT)
  have h2 : ∀ v, approach2Price txs = some v → 0 < v := by
    intro v hv
    have := (approach2Price_range hv).1
    linarith
  refine ⟨?_, fun v hv => approach1Price_pos hv, h2, h3, ?_⟩
  · rw [currentYTPrice_decompose]
    rcases ha1 : approach1Price txs with _ | v
    · rcases ha2 : approach2Price txs with _ | w
      · rcases ha3 : approach3Price pf now m txs with _ | u
        · simp [firstSome]
        · have := h3 u ha3
          simp only [firstSome, Option.getD_some]
          linarith
      · have := h2 w ha2
        simp only [firstSome, Option.getD_some]
        linarith
    · have := approach1Price_pos ha1
      simp only [firstSome, Option.getD_some]
      linarith
  · intro hn1 hn2 hn3
    rw [currentYTPrice_decompose, hn1, hn2, hn3]
    rfl

/-- Witness for C9: the concrete implied-APY fixture of C6 with the
positivity-preserving power function `fun b _ => b` has a nonnegative
price. -/
theorem currentYTPrice_nonneg_witness :
    0 ≤ currentYTPrice (fun b _ => b) 0 ⟨"0xdef", "mkt2", 31536000000⟩
        [⟨none, none, some (1/2), 10, none, none⟩] :=
  (currentYTPrice_nonneg (fun b _ => b) 0 ⟨"0xdef", "mkt2", 31536000000⟩
    [⟨none, none, some (1/2), 10, none, none⟩]
    (fun _ _ hb _ => lt_trans one_pos hb)).1
